import Mathlib

/-!
Verification of the ST touchpad driver (`src/unnamed/part_003`, a copy of
`common/touchpad_st.c` from the chrome-ec tree).

The development shallowly embeds the driver's data model and operations:

* the event reader `st_tp_read_all_events` and its scan loop;
* the heatmap double-buffer producer path of `st_tp_read_report` and the
  consumer index advance of `heatmap_send_packet`;
* the system-state machine `st_tp_update_system_state` together with
  `set_bits`;
* the host-data loader `st_tp_load_host_data`;
* the flash programmer `st_tp_write_flash` / `touchpad_update_write` and the
  erase/prepare sequence `erase_flash` / `st_tp_prepare_for_update`.

Machine integers are modelled as `Nat` restricted to 32 bits where overflow
matters (the buffer indices, the `system_state` bitmask).  SPI transactions
are modelled by oracles: a function giving the result code of the n-th
transaction of a call (0 is success, matching `EC_SUCCESS`), and, where the
driver reads data back, a function giving the bytes read.
-/

/-! ### Error codes and constants

`EC_SUCCESS` and friends come from the ec `common.h` / `ec_commands.h`
headers which are not part of the sources; only `EC_SUCCESS = 0` and the
distinctness of error codes is relied upon by the driver code. -/

/-- Modelled from the spec: success return code of the ec (the headers
defining the `ec_error_list` enum are not under `src/`); success is 0. -/
def EC_SUCCESS : Nat := 0

/-- Modelled from the spec: the dedicated timeout error code surfaced when a
bounded polling loop is exhausted.  Any nonzero value works. -/
def EC_ERROR_TIMEOUT : Nat := 4

/-- Modelled from the spec: the malformed-parameter error code.  Any nonzero
value works. -/
def EC_ERROR_INVAL : Nat := 5

/-- Modelled from the spec: the event-record magic sentinel
(`ST_TP_EVENT_MAGIC` of `touchpad_st.h`, not under `src/`).  Its concrete
value never matters, only comparison against it. -/
def ST_TP_EVENT_MAGIC : Nat := 3

/-- Modelled from the spec: event id of an error report
(`ST_TP_EVENT_ID_ERROR_REPORT` of `touchpad_st.h`). -/
def ST_TP_EVENT_ID_ERROR_REPORT : Nat := 15

/-! ### Event reader (`st_tp_read_all_events`)

`rx_buf.events` is a fixed array of 32 eight-byte event records.  An event
record carries a magic byte and an event id; the remaining payload bytes are
irrelevant to the scan loop. -/

/-- One 8-byte ST event record (`struct st_tp_event_t`): the magic byte and
the event id.  The kind-specific payload is not needed by the scan loop. -/
structure STEvent where
  magic : Nat
  evt_id : Nat
deriving DecidableEq, Repr

instance : Inhabited STEvent := ⟨⟨0, 0⟩⟩

/-- The scan loop of `st_tp_read_all_events`: walk the records in order and
count until the first record whose magic byte differs from
`ST_TP_EVENT_MAGIC` (`if (e->magic != ST_TP_EVENT_MAGIC) break;`). -/
def scanEvents : List STEvent → Nat
  | [] => 0
  | e :: es => if e.magic ≠ ST_TP_EVENT_MAGIC then 0 else scanEvents es + 1

/-- The records the loop body of `st_tp_read_all_events` actually processes
(reaches past the magic check), in order: the loop breaks at the first
invalid-magic record, so the processed records are exactly the valid prefix. -/
def scannedPrefix : List STEvent → List STEvent
  | [] => []
  | e :: es => if e.magic ≠ ST_TP_EVENT_MAGIC then [] else e :: scannedPrefix es

/-- `st_tp_handle_error_report`: logs the structured fields and reports a
minor error; it returns 0 in every case (major-error classification is an
acknowledged TODO in the code). -/
def st_tp_handle_error_report (e : STEvent) : Nat :=
  if e.magic ≠ ST_TP_EVENT_MAGIC ∨ e.evt_id ≠ ST_TP_EVENT_ID_ERROR_REPORT then 0
  else 0

/-- `st_tp_read_all_events`: one SPI transaction fetches the whole 32-record
batch into `rx_buf.events`; a transaction failure `ret` is returned as
`-ret`, otherwise the scan loop runs and its index is returned.
`spiRet` is the result code of the fetching transaction and `events` the
batch it deposits in `rx_buf.events`. -/
def st_tp_read_all_events (spiRet : Nat) (events : List STEvent) : Int :=
  if spiRet ≠ 0 then -(spiRet : Int) else (scanEvents events : Int)

theorem scanEvents_le_length (es : List STEvent) : scanEvents es ≤ es.length := by
  induction es with
  | nil => simp [scanEvents]
  | cons e es ih =>
    simp only [scanEvents, List.length_cons]
    split <;> omega

theorem scanEvents_valid (es : List STEvent) (i : Nat) (hi : i < scanEvents es) :
    (es.getD i default).magic = ST_TP_EVENT_MAGIC := by
  induction es generalizing i with
  | nil => simp [scanEvents] at hi
  | cons e es ih =>
    simp only [scanEvents] at hi
    by_cases h : e.magic ≠ ST_TP_EVENT_MAGIC
    · simp [h] at hi
    · simp only [h, if_false] at hi
      push_neg at h
      cases i with
      | zero => simpa using h
      | succ j =>
        simp only [List.getD_cons_succ]
        exact ih j (by omega)

theorem scanEvents_stop (es : List STEvent) (h : scanEvents es < es.length) :
    (es.getD (scanEvents es) default).magic ≠ ST_TP_EVENT_MAGIC := by
  induction es with
  | nil => simp [scanEvents] at h
  | cons e es ih =>
    by_cases hm : e.magic ≠ ST_TP_EVENT_MAGIC
    · simp [scanEvents, hm]
    · simp only [scanEvents, hm, if_false] at h ⊢
      simp only [List.length_cons] at h
      exact ih (by omega)

theorem scannedPrefix_eq_take (es : List STEvent) :
    scannedPrefix es = es.take (scanEvents es) := by
  induction es with
  | nil => simp [scannedPrefix, scanEvents]
  | cons e es ih =>
    by_cases hm : e.magic ≠ ST_TP_EVENT_MAGIC
    · simp [scannedPrefix, scanEvents, hm]
    · simp [scannedPrefix, scanEvents, hm, ih]

/-- Claim C1: on a successful fetch, `st_tp_read_all_events` scans the 32
records in order from index 0, stops at the first record whose magic byte is
not the sentinel without processing it or anything after it, and returns
exactly the number of valid records before that point. -/
theorem C1_read_all_events_stops_at_invalid_magic
    (events : List STEvent) (hlen : events.length = 32) :
    st_tp_read_all_events 0 events = (scanEvents events : Int) ∧
    scanEvents events ≤ 32 ∧
    (∀ i, i < scanEvents events →
      (events.getD i default).magic = ST_TP_EVENT_MAGIC) ∧
    (scanEvents events < 32 →
      (events.getD (scanEvents events) default).magic ≠ ST_TP_EVENT_MAGIC) ∧
    scannedPrefix events = events.take (scanEvents events) := by
  refine ⟨by simp [st_tp_read_all_events], ?_, ?_, ?_, ?_⟩
  · simpa [hlen] using scanEvents_le_length events
  · exact fun i hi => scanEvents_valid events i hi
  · intro h
    exact scanEvents_stop events (by omega)
  · exact scannedPrefix_eq_take events

/-- A concrete 32-record batch: two valid records (the second an error
report), then an invalid-magic record, then 29 further records. -/
def c1Events : List STEvent :=
  ⟨3, 4⟩ :: ⟨3, 15⟩ :: ⟨0, 0⟩ :: List.replicate 29 ⟨3, 4⟩

theorem C1_read_all_events_stops_at_invalid_magic_witness :
    st_tp_read_all_events 0 c1Events = (scanEvents c1Events : Int) ∧
    scanEvents c1Events ≤ 32 ∧
    (∀ i, i < scanEvents c1Events →
      (c1Events.getD i default).magic = ST_TP_EVENT_MAGIC) ∧
    (scanEvents c1Events < 32 →
      (c1Events.getD (scanEvents c1Events) default).magic ≠ ST_TP_EVENT_MAGIC) ∧
    scannedPrefix c1Events = c1Events.take (scanEvents c1Events) :=
  C1_read_all_events_stops_at_invalid_magic c1Events (by decide)

/-- Claim C10: on success the return value of `st_tp_read_all_events` is
between 0 and 32 (the size of the `rx_buf.events` array), and on SPI failure
the return value is strictly negative. -/
theorem C10_read_all_events_return_bounds :
    (∀ (spiRet : Nat) (events : List STEvent), spiRet ≠ 0 →
      st_tp_read_all_events spiRet events < 0) ∧
    (∀ events : List STEvent, events.length = 32 →
      0 ≤ st_tp_read_all_events 0 events ∧ st_tp_read_all_events 0 events ≤ 32) := by
  constructor
  · intro spiRet events h
    simp only [st_tp_read_all_events, if_pos h]
    omega
  · intro events hlen
    have h := scanEvents_le_length events
    simp only [st_tp_read_all_events]
    norm_num
    omega

theorem C10_read_all_events_return_bounds_witness :
    st_tp_read_all_events 4 c1Events < 0 ∧
    0 ≤ st_tp_read_all_events 0 c1Events ∧ st_tp_read_all_events 0 c1Events ≤ 32 :=
  ⟨C10_read_all_events_return_bounds.1 4 c1Events (by decide),
   C10_read_all_events_return_bounds.2 c1Events (by decide)⟩

/-! ### Heatmap double buffer (`st_tp_read_report` / `heatmap_send_packet`)

`spi_buffer_index` and `usb_buffer_index` are free-running `uint32_t`
counters; the producer compares them by 32-bit subtraction
(`spi_buffer_index - usb_buffer_index <= 1`). -/

/-- 2^32, the modulus of the `uint32_t` buffer indices. -/
def U32 : Nat := 4294967296

/-- 32-bit unsigned subtraction `a - b` for `a b < U32`, as used by the
producer to measure the fill level of the double buffer. -/
def gap32 (a b : Nat) : Nat := (a + U32 - b) % U32

/-- The pair of buffer indices shared between the SPI capture path and the
USB transmit path. -/
structure HeatmapState where
  spi_buffer_index : Nat
  usb_buffer_index : Nat
deriving DecidableEq, Repr

/-- The heatmap branch of `st_tp_read_report` (its effect on the two buffer
indices).  When heatmap streaming is enabled: if
`spi_buffer_index - usb_buffer_index <= 1`, try `st_tp_read_frame`; on
success increment `spi_buffer_index`, and in debug mode additionally print
the frame and increment `usb_buffer_index`.  Otherwise (or when the frame
read fails, or heatmap mode is off) the indices are untouched.
`frameOk` tells whether `st_tp_read_frame` returned `EC_SUCCESS`; `debug`
is the `SYSTEM_STATE_DEBUG_MODE` bit; `heatmapOn` is the
`SYSTEM_STATE_ENABLE_HEAT_MAP` bit. -/
def st_tp_read_report_indices (heatmapOn : Bool) (s : HeatmapState)
    (frameOk debug : Bool) : HeatmapState :=
  if heatmapOn then
    if gap32 s.spi_buffer_index s.usb_buffer_index ≤ 1 then
      if frameOk then
        let s1 : HeatmapState :=
          { s with spi_buffer_index := (s.spi_buffer_index + 1) % U32 }
        if debug then
          { s1 with usb_buffer_index := (s1.usb_buffer_index + 1) % U32 }
        else s1
      else s
    else s
  else s

/-- The consumer index advance: `heatmap_task` only calls
`heatmap_send_packet` after checking `usb_buffer_index == spi_buffer_index`
(buffer empty); a call of `heatmap_send_packet` that completes a full packet
increments `usb_buffer_index` once. -/
def heatmap_consumer_advance (s : HeatmapState) : HeatmapState :=
  if s.usb_buffer_index ≠ s.spi_buffer_index then
    { s with usb_buffer_index := (s.usb_buffer_index + 1) % U32 }
  else s

/-- States of the index pair reachable from reset (both counters zero) under
any interleaving of producer captures and consumer advances. -/
inductive HeatmapReachable : HeatmapState → Prop
  | init : HeatmapReachable ⟨0, 0⟩
  | producer {s} (heatmapOn frameOk debug : Bool) :
      HeatmapReachable s →
      HeatmapReachable (st_tp_read_report_indices heatmapOn s frameOk debug)
  | consumer {s} : HeatmapReachable s → HeatmapReachable (heatmap_consumer_advance s)

theorem gap32_eq (a b : Nat) (ha : a < U32) (hb : b < U32) :
    gap32 a b = if b ≤ a then a - b else a + U32 - b := by
  unfold gap32 U32 at *
  split <;> omega

/-- Bounds and gap invariant packaged for the reachability induction. -/
def HeatmapInv (s : HeatmapState) : Prop :=
  s.spi_buffer_index < U32 ∧ s.usb_buffer_index < U32 ∧
  gap32 s.spi_buffer_index s.usb_buffer_index ≤ 2

theorem heatmap_inv_producer (s : HeatmapState) (heatmapOn frameOk debug : Bool)
    (h : HeatmapInv s) : HeatmapInv (st_tp_read_report_indices heatmapOn s frameOk debug) := by
  obtain ⟨hs, hu, hg⟩ := h
  simp only [HeatmapInv, st_tp_read_report_indices, gap32, U32] at hs hu hg ⊢
  repeat' split
  all_goals try dsimp only
  all_goals omega

theorem heatmap_inv_consumer (s : HeatmapState) (h : HeatmapInv s) :
    HeatmapInv (heatmap_consumer_advance s) := by
  obtain ⟨hs, hu, hg⟩ := h
  simp only [HeatmapInv, heatmap_consumer_advance, gap32, U32] at hs hu hg ⊢
  repeat' split
  all_goals try dsimp only
  all_goals omega

theorem heatmap_reachable_inv (s : HeatmapState) (h : HeatmapReachable s) :
    HeatmapInv s := by
  induction h with
  | init => exact ⟨by decide, by decide, by decide⟩
  | producer heatmapOn frameOk debug _ ih => exact heatmap_inv_producer _ _ _ _ ih
  | consumer _ ih => exact heatmap_inv_consumer _ ih

/-- Claim C2 counterexample: with `spi_buffer_index = 5` and
`usb_buffer_index = 4` the gap is 1, so the guard
`spi_buffer_index - usb_buffer_index <= 1` holds and the capture is
performed, advancing the write index to 6 = read index + 2: the capture is
not skipped, and the write index does advance past read index + 1. -/
theorem C2_counterexample_capture_at_gap_one :
    st_tp_read_report_indices true ⟨5, 4⟩ true false = ⟨6, 4⟩ ∧
    4 + 1 < (st_tp_read_report_indices true ⟨5, 4⟩ true false).spi_buffer_index := by
  constructor <;> decide

/-- Claim C2 (amended): the producer never adviances the write index past the
read index plus two; a capture attempt arriving when the gap is already two
(for example write index 6, read index 4) is skipped, not performed, until
the read index advances. -/
theorem C2_amended_capture_skipped_at_gap_two
    (heatmapOn : Bool) (s : HeatmapState) (frameOk debug : Bool)
    (hs : s.spi_buffer_index < U32) (hu : s.usb_buffer_index < U32)
    (hg : gap32 s.spi_buffer_index s.usb_buffer_index ≤ 2) :
    gap32 (st_tp_read_report_indices heatmapOn s frameOk debug).spi_buffer_index
      (st_tp_read_report_indices heatmapOn s frameOk debug).usb_buffer_index ≤ 2 ∧
    (gap32 s.spi_buffer_index s.usb_buffer_index = 2 →
      st_tp_read_report_indices heatmapOn s frameOk debug = s) := by
  constructor
  · exact (heatmap_inv_producer s heatmapOn frameOk debug ⟨hs, hu, hg⟩).2.2
  · intro h2
    unfold st_tp_read_report_indices
    split
    · rw [if_neg (by omega)]
    · rfl

theorem C2_amended_capture_skipped_at_gap_two_witness :
    gap32 (st_tp_read_report_indices true ⟨6, 4⟩ true false).spi_buffer_index
      (st_tp_read_report_indices true ⟨6, 4⟩ true false).usb_buffer_index ≤ 2 ∧
    (gap32 6 4 = 2 → st_tp_read_report_indices true ⟨6, 4⟩ true false = ⟨6, 4⟩) :=
  C2_amended_capture_skipped_at_gap_two true ⟨6, 4⟩ true false
    (by decide) (by decide) (by decide)

/-- Claim C3: a capture is attempted only when
`spi_buffer_index - usb_buffer_index <= 1` (otherwise the indices are left
untouched), and consequently in every reachable state the 32-bit gap between
write and read index is at most 2, the two slots of the double buffer. -/
theorem C3_heatmap_gap_invariant :
    (∀ (heatmapOn : Bool) (s : HeatmapState) (frameOk debug : Bool),
      1 < gap32 s.spi_buffer_index s.usb_buffer_index →
      st_tp_read_report_indices heatmapOn s frameOk debug = s) ∧
    (∀ s : HeatmapState, HeatmapReachable s →
      gap32 s.spi_buffer_index s.usb_buffer_index ≤ 2) := by
  constructor
  · intro heatmapOn s frameOk debug hgap
    unfold st_tp_read_report_indices
    split
    · rw [if_neg (by omega)]
    · rfl
  · exact fun s h => (heatmap_reachable_inv s h).2.2

theorem C3_heatmap_gap_invariant_witness :
    st_tp_read_report_indices true ⟨7, 5⟩ true false = ⟨7, 5⟩ ∧
    gap32 (0 : Nat) (0 : Nat) ≤ 2 :=
  ⟨C3_heatmap_gap_invariant.1 true ⟨7, 5⟩ true false (by decide),
   C3_heatmap_gap_invariant.2 ⟨0, 0⟩ HeatmapReachable.init⟩

/-! ### System state machine (`st_tp_update_system_state`)

`system_state` is a 32-bit int bitmask.  The update routine first copies the
bits outside the caller's mask from the current state into the target, then
walks three flag groups (debug; heat map + dome switch; active mode),
issuing a device command and committing the group's bits only when the
group's target differs from the current state, and finally issues a
locked-scan-mode command when the call enabled the heat map. -/

def SYSTEM_STATE_DEBUG_MODE : Nat := 1
def SYSTEM_STATE_ENABLE_HEAT_MAP : Nat := 2
def SYSTEM_STATE_ENABLE_DOME_SWITCH : Nat := 4
def SYSTEM_STATE_ACTIVE_MODE : Nat := 8
def SYSTEM_STATE_DOME_SWITCH_LEVEL : Nat := 16

/-- The value of `~mask` for a 32-bit C int holding `mask`. -/
def compl32 (m : Nat) : Nat := (2 ^ 32 - 1) ^^^ m

/-- `set_bits(lvalue, rvalue, mask)`: clear the `mask` bits of the lvalue and
copy them from the rvalue (`*lvalue &= ~mask; *lvalue |= rvalue & mask;`). -/
def set_bits (lvalue rvalue mask : Nat) : Nat :=
  (lvalue &&& compl32 mask) ||| (rvalue &&& mask)

/-- The SPI commands `st_tp_update_system_state` can issue, in issue order. -/
inductive STCmd where
  | featureSelect (bits : Nat)
  | scanModeActive (enable : Nat)
  | scanModeLocked
deriving DecidableEq, Repr

theorem testBit_set_bits (l r m i : Nat) :
    (set_bits l r m).testBit i =
      ((l.testBit i && (decide (i < 32) ^^ m.testBit i)) ||
       (r.testBit i && m.testBit i)) := by
  simp only [set_bits, compl32, Nat.testBit_and, Nat.testBit_or, Nat.testBit_xor,
    Nat.testBit_two_pow_sub_one]

theorem testBit_high_false (x i : Nat) (hx : x < 2 ^ 32) (hi : ¬ i < 32) :
    x.testBit i = false :=
  Nat.testBit_lt_two_pow
    (lt_of_lt_of_le hx (Nat.pow_le_pow_right (by norm_num) (by omega)))

/-- Committing a group: the bits of a sub-mask `h` of the committed mask `g`
come from the rvalue. -/
theorem set_bits_land_sub (s r g h : Nat) (hh : h < 2 ^ 32) (hsub : h &&& g = h) :
    set_bits s r g &&& h = r &&& h := by
  apply Nat.eq_of_testBit_eq
  intro i
  have hsb := congrArg (fun x => Nat.testBit x i) hsub
  simp only [Nat.testBit_and] at hsb
  by_cases hi : i < 32
  · simp only [Nat.testBit_and, testBit_set_bits, decide_eq_true hi]
    revert hsb
    generalize Nat.testBit s i = b1
    generalize Nat.testBit r i = b2
    generalize Nat.testBit g i = b3
    generalize Nat.testBit h i = b4
    revert b1 b2 b3 b4
    decide
  · simp only [Nat.testBit_and, testBit_high_false h i hh hi, Bool.and_false]

/-- Committing a group: the bits of a mask `h` disjoint from the committed
mask `g` keep their lvalue. -/
theorem set_bits_land_disjoint (s r g h : Nat) (hh : h < 2 ^ 32)
    (hdisj : h &&& g = 0) : set_bits s r g &&& h = s &&& h := by
  apply Nat.eq_of_testBit_eq
  intro i
  have hsb := congrArg (fun x => Nat.testBit x i) hdisj
  simp only [Nat.testBit_and, Nat.zero_testBit] at hsb
  by_cases hi : i < 32
  · simp only [Nat.testBit_and, testBit_set_bits, decide_eq_true hi]
    revert hsb
    generalize Nat.testBit s i = b1
    generalize Nat.testBit r i = b2
    generalize Nat.testBit g i = b3
    generalize Nat.testBit h i = b4
    revert b1 b2 b3 b4
    decide
  · simp only [Nat.testBit_and, testBit_high_false h i hh hi, Bool.and_false]

/-- Committing a group of the target state `set_bits new s0 (compl32 mask)`
into a state that agrees with `s0` outside `mask` keeps the agreement. -/
theorem set_bits_preserves_outside (s s0 new mask g : Nat)
    (hs0 : s0 < 2 ^ 32) (hg : g < 2 ^ 32)
    (hinv : s &&& compl32 mask = s0 &&& compl32 mask) :
    set_bits s (set_bits new s0 (compl32 mask)) g &&& compl32 mask
      = s0 &&& compl32 mask := by
  apply Nat.eq_of_testBit_eq
  intro i
  have hb := congrArg (fun x => Nat.testBit x i) hinv
  simp only [Nat.testBit_and, testBit_set_bits, compl32, Nat.testBit_xor,
    Nat.testBit_two_pow_sub_one] at hb ⊢
  by_cases hi : i < 32
  · simp only [decide_eq_true hi] at hb ⊢
    revert hb
    generalize Nat.testBit s i = b1
    generalize Nat.testBit s0 i = b2
    generalize Nat.testBit new i = b3
    generalize Nat.testBit mask i = b4
    generalize Nat.testBit g i = b5
    revert b1 b2 b3 b4 b5
    decide
  · simp only [testBit_high_false g i hg hi, testBit_high_false s0 i hs0 hi,
      decide_eq_false hi] at hb ⊢
    revert hb
    generalize Nat.testBit s i = b1
    generalize Nat.testBit new i = b3
    generalize Nat.testBit mask i = b4
    revert b1 b3 b4
    decide

/-- If a state agrees with the target `set_bits new s0 (compl32 mask)` on a
group `g`, recomputing the target from that state leaves the group equal:
the group comparison of a repeated call finds nothing to do. -/
theorem second_target_land_eq (s1 s0 new mask g : Nat) (hg : g < 2 ^ 32)
    (h : s1 &&& g = set_bits new s0 (compl32 mask) &&& g) :
    set_bits new s1 (compl32 mask) &&& g = s1 &&& g := by
  apply Nat.eq_of_testBit_eq
  intro i
  have hb := congrArg (fun x => Nat.testBit x i) h
  simp only [Nat.testBit_and, testBit_set_bits, compl32, Nat.testBit_xor,
    Nat.testBit_two_pow_sub_one] at hb ⊢
  by_cases hi : i < 32
  · simp only [decide_eq_true hi] at hb ⊢
    revert hb
    generalize Nat.testBit s1 i = b1
    generalize Nat.testBit s0 i = b2
    generalize Nat.testBit new i = b3
    generalize Nat.testBit mask i = b4
    generalize Nat.testBit g i = b5
    revert b1 b2 b3 b4 b5
    decide
  · simp only [Nat.testBit_and, testBit_high_false g i hg hi, Bool.and_false]

/-- Tail of `st_tp_update_system_state` from the `need_locked_scan_mode`
check on: when the call enabled the heat map, issue the locked-scan-mode
command and return its result.  The oracle `o` gives the result code of the
k-th SPI transaction of the call; the returned triple is (return value,
new `system_state`, commands issued so far). -/
def st_tp_update_system_state_locked (o : Nat → Nat) (k : Nat) (needLocked : Bool)
    (state : Nat) (cmds : List STCmd) : Nat × Nat × List STCmd :=
  if needLocked then
    if o k ≠ 0 then (o k, state, cmds ++ [STCmd.scanModeLocked])
    else (EC_SUCCESS, state, cmds ++ [STCmd.scanModeLocked])
  else (EC_SUCCESS, state, cmds)

/-- Tail of `st_tp_update_system_state` from the `SYSTEM_STATE_ACTIVE_MODE`
group on: if the group changed, issue the scan-mode-select command, abort on
failure, otherwise commit the group bits; then fall through to the
locked-scan-mode tail. -/
def st_tp_update_system_state_active (o : Nat → Nat) (k : Nat) (needLocked : Bool)
    (new1 state : Nat) (cmds : List STCmd) : Nat × Nat × List STCmd :=
  if new1 &&& SYSTEM_STATE_ACTIVE_MODE ≠ state &&& SYSTEM_STATE_ACTIVE_MODE then
    let cmds1 := cmds ++ [STCmd.scanModeActive
      (if new1 &&& SYSTEM_STATE_ACTIVE_MODE ≠ 0 then 1 else 0)]
    if o k ≠ 0 then (o k, state, cmds1)
    else st_tp_update_system_state_locked o (k + 1) needLocked
      (set_bits state new1 SYSTEM_STATE_ACTIVE_MODE) cmds1
  else st_tp_update_system_state_locked o k needLocked state cmds

/-- Middle of `st_tp_update_system_state`: the heat-map/dome-switch group.
If the group changed, issue the feature-select command whose payload bit 0
is the heat-map enable and bit 1 the dome-switch enable, abort on failure,
otherwise commit the group bits, and remember (`need_locked_scan_mode`)
whether the target enables the heat map; then handle the active-mode group. -/
def st_tp_update_system_state_feature (o : Nat → Nat) (new1 s1 : Nat) :
    Nat × Nat × List STCmd :=
  if new1 &&& (SYSTEM_STATE_ENABLE_HEAT_MAP ||| SYSTEM_STATE_ENABLE_DOME_SWITCH)
      ≠ s1 &&& (SYSTEM_STATE_ENABLE_HEAT_MAP ||| SYSTEM_STATE_ENABLE_DOME_SWITCH) then
    let bits := (if new1 &&& SYSTEM_STATE_ENABLE_HEAT_MAP ≠ 0 then 1 else 0) |||
                (if new1 &&& SYSTEM_STATE_ENABLE_DOME_SWITCH ≠ 0 then 2 else 0)
    if o 0 ≠ 0 then (o 0, s1, [STCmd.featureSelect bits])
    else st_tp_update_system_state_active o 1
      (decide (new1 &&& SYSTEM_STATE_ENABLE_HEAT_MAP ≠ 0)) new1
      (set_bits s1 new1
        (SYSTEM_STATE_ENABLE_HEAT_MAP ||| SYSTEM_STATE_ENABLE_DOME_SWITCH))
      [STCmd.featureSelect bits]
  else st_tp_update_system_state_active o 0 false new1 s1 []

/-- `st_tp_update_system_state(new_state, mask)` acting on a current
`system_state` equal to `state0`.  First the bits outside `mask` are copied
from the current state into the target
(`set_bits(&new_state, system_state, ~mask)`), then the debug group is
committed locally if changed (no SPI), then the remaining groups are
handled.  Result: (return value, new `system_state`, issued commands). -/
def st_tp_update_system_state (o : Nat → Nat) (state0 new_state mask : Nat) :
    Nat × Nat × List STCmd :=
  let new1 := set_bits new_state state0 (compl32 mask)
  let s1 :=
    if new1 &&& SYSTEM_STATE_DEBUG_MODE ≠ state0 &&& SYSTEM_STATE_DEBUG_MODE
    then set_bits state0 new1 SYSTEM_STATE_DEBUG_MODE else state0
  st_tp_update_system_state_feature o new1 s1

theorem locked_result_state (o : Nat → Nat) (k : Nat) (nl : Bool) (s : Nat)
    (c : List STCmd) : (st_tp_update_system_state_locked o k nl s c).2.1 = s := by
  unfold st_tp_update_system_state_locked
  repeat' split
  all_goals rfl

theorem active_success_groups (o : Nat → Nat) (k : Nat) (nl : Bool) (new1 s : Nat)
    (c : List STCmd)
    (h : (st_tp_update_system_state_active o k nl new1 s c).1 = EC_SUCCESS) :
    (st_tp_update_system_state_active o k nl new1 s c).2.1 &&& SYSTEM_STATE_ACTIVE_MODE
        = new1 &&& SYSTEM_STATE_ACTIVE_MODE ∧
    ∀ g, g < 2 ^ 32 → g &&& SYSTEM_STATE_ACTIVE_MODE = 0 →
      (st_tp_update_system_state_active o k nl new1 s c).2.1 &&& g = s &&& g := by
  unfold st_tp_update_system_state_active at h ⊢
  by_cases hc : new1 &&& SYSTEM_STATE_ACTIVE_MODE ≠ s &&& SYSTEM_STATE_ACTIVE_MODE
  · simp only [if_pos hc] at h ⊢
    by_cases ho : o k ≠ 0
    · rw [if_pos ho] at h
      exact absurd h (by simpa [EC_SUCCESS] using ho)
    · rw [if_neg ho] at h ⊢
      rw [locked_result_state]
      refine ⟨set_bits_land_sub _ _ _ _ (by decide) (by decide), ?_⟩
      intro g hg hdisj
      exact set_bits_land_disjoint _ _ _ _ hg hdisj
  · simp only [if_neg hc] at h ⊢
    push_neg at hc
    rw [locked_result_state]
    exact ⟨hc.symm, fun g _ _ => rfl⟩

theorem feature_success_groups (o : Nat → Nat) (new1 s1 : Nat)
    (h : (st_tp_update_system_state_feature o new1 s1).1 = EC_SUCCESS) :
    (st_tp_update_system_state_feature o new1 s1).2.1
        &&& (SYSTEM_STATE_ENABLE_HEAT_MAP ||| SYSTEM_STATE_ENABLE_DOME_SWITCH)
      = new1 &&& (SYSTEM_STATE_ENABLE_HEAT_MAP ||| SYSTEM_STATE_ENABLE_DOME_SWITCH) ∧
    (st_tp_update_system_state_feature o new1 s1).2.1 &&& SYSTEM_STATE_ACTIVE_MODE
      = new1 &&& SYSTEM_STATE_ACTIVE_MODE ∧
    ∀ g, g < 2 ^ 32 →
      g &&& (SYSTEM_STATE_ENABLE_HEAT_MAP ||| SYSTEM_STATE_ENABLE_DOME_SWITCH) = 0 →
      g &&& SYSTEM_STATE_ACTIVE_MODE = 0 →
      (st_tp_update_system_state_feature o new1 s1).2.1 &&& g = s1 &&& g := by
  unfold st_tp_update_system_state_feature at h ⊢
  by_cases hc : new1 &&& (SYSTEM_STATE_ENABLE_HEAT_MAP ||| SYSTEM_STATE_ENABLE_DOME_SWITCH)
      ≠ s1 &&& (SYSTEM_STATE_ENABLE_HEAT_MAP ||| SYSTEM_STATE_ENABLE_DOME_SWITCH)
  · simp only [if_pos hc] at h ⊢
    by_cases ho : o 0 ≠ 0
    · rw [if_pos ho] at h
      exact absurd h (by simpa [EC_SUCCESS] using ho)
    · rw [if_neg ho] at h ⊢
      have ha := active_success_groups o 1
        (decide (new1 &&& SYSTEM_STATE_ENABLE_HEAT_MAP ≠ 0)) new1
        (set_bits s1 new1
          (SYSTEM_STATE_ENABLE_HEAT_MAP ||| SYSTEM_STATE_ENABLE_DOME_SWITCH))
        [STCmd.featureSelect
          ((if new1 &&& SYSTEM_STATE_ENABLE_HEAT_MAP ≠ 0 then 1 else 0) |||
           (if new1 &&& SYSTEM_STATE_ENABLE_DOME_SWITCH ≠ 0 then 2 else 0))] h
      refine ⟨?_, ha.1, ?_⟩
      · rw [ha.2 _ (by decide) (by decide)]
        exact set_bits_land_sub _ _ _ _ (by decide) (by decide)
      · intro g hg hdisj6 hdisj8
        rw [ha.2 g hg hdisj8]
        exact set_bits_land_disjoint _ _ _ _ hg hdisj6
  · simp only [if_neg hc] at h ⊢
    push_neg at hc
    have ha := active_success_groups o 0 false new1 s1 [] h
    refine ⟨?_, ha.1, ?_⟩
    · rw [ha.2 _ (by decide) (by decide)]
      exact hc.symm
    · intro g hg hdisj6 hdisj8
      exact ha.2 g hg hdisj8

theorem upd_success_groups (o : Nat → Nat) (s0 new mask : Nat)
    (h : (st_tp_update_system_state o s0 new mask).1 = EC_SUCCESS) :
    (st_tp_update_system_state o s0 new mask).2.1 &&& SYSTEM_STATE_DEBUG_MODE
      = set_bits new s0 (compl32 mask) &&& SYSTEM_STATE_DEBUG_MODE ∧
    (st_tp_update_system_state o s0 new mask).2.1
        &&& (SYSTEM_STATE_ENABLE_HEAT_MAP ||| SYSTEM_STATE_ENABLE_DOME_SWITCH)
      = set_bits new s0 (compl32 mask)
        &&& (SYSTEM_STATE_ENABLE_HEAT_MAP ||| SYSTEM_STATE_ENABLE_DOME_SWITCH) ∧
    (st_tp_update_system_state o s0 new mask).2.1 &&& SYSTEM_STATE_ACTIVE_MODE
      = set_bits new s0 (compl32 mask) &&& SYSTEM_STATE_ACTIVE_MODE := by
  unfold st_tp_update_system_state at h ⊢
  by_cases hdbg : set_bits new s0 (compl32 mask) &&& SYSTEM_STATE_DEBUG_MODE
      ≠ s0 &&& SYSTEM_STATE_DEBUG_MODE
  · simp only [if_pos hdbg] at h ⊢
    have hf := feature_success_groups o (set_bits new s0 (compl32 mask))
      (set_bits s0 (set_bits new s0 (compl32 mask)) SYSTEM_STATE_DEBUG_MODE) h
    refine ⟨?_, hf.1, hf.2.1⟩
    rw [hf.2.2 _ (by decide) (by decide) (by decide)]
    exact set_bits_land_sub _ _ _ _ (by decide) (by decide)
  · simp only [if_neg hdbg] at h ⊢
    push_neg at hdbg
    have hf := feature_success_groups o (set_bits new s0 (compl32 mask)) s0 h
    refine ⟨?_, hf.1, hf.2.1⟩
    rw [hf.2.2 _ (by decide) (by decide) (by decide)]
    exact hdbg.symm

theorem upd_no_change (o : Nat → Nat) (s new mask : Nat)
    (h1 : set_bits new s (compl32 mask) &&& SYSTEM_STATE_DEBUG_MODE
      = s &&& SYSTEM_STATE_DEBUG_MODE)
    (h6 : set_bits new s (compl32 mask)
        &&& (SYSTEM_STATE_ENABLE_HEAT_MAP ||| SYSTEM_STATE_ENABLE_DOME_SWITCH)
      = s &&& (SYSTEM_STATE_ENABLE_HEAT_MAP ||| SYSTEM_STATE_ENABLE_DOME_SWITCH))
    (h8 : set_bits new s (compl32 mask) &&& SYSTEM_STATE_ACTIVE_MODE
      = s &&& SYSTEM_STATE_ACTIVE_MODE) :
    st_tp_update_system_state o s new mask = (EC_SUCCESS, s, []) := by
  unfold st_tp_update_system_state st_tp_update_system_state_feature
    st_tp_update_system_state_active st_tp_update_system_state_locked
  simp only [if_neg (not_not_intro h1), if_neg (not_not_intro h6),
    if_neg (not_not_intro h8)]
  rfl

/-- Claim C6: `st_tp_update_system_state` is idempotent with respect to
device communication: if a call with arguments (`new_state`, `mask`)
succeeds, an immediately repeated call with the same arguments issues no
SPI commands, changes nothing, and succeeds, whatever its oracle returns. -/
theorem C6_update_system_state_idempotent (o1 o2 : Nat → Nat)
    (s0 new mask : Nat)
    (h : (st_tp_update_system_state o1 s0 new mask).1 = EC_SUCCESS) :
    st_tp_update_system_state o2
        (st_tp_update_system_state o1 s0 new mask).2.1 new mask
      = (EC_SUCCESS, (st_tp_update_system_state o1 s0 new mask).2.1, []) := by
  have hg := upd_success_groups o1 s0 new mask h
  exact upd_no_change o2 _ new mask
    (second_target_land_eq _ s0 new mask _ (by decide) hg.1)
    (second_target_land_eq _ s0 new mask _ (by decide) hg.2.1)
    (second_target_land_eq _ s0 new mask _ (by decide) hg.2.2)

theorem C6_update_system_state_idempotent_witness :
    st_tp_update_system_state (fun _ => 1)
        (st_tp_update_system_state (fun _ => 0) 0 10 10).2.1 10 10
      = (EC_SUCCESS, (st_tp_update_system_state (fun _ => 0) 0 10 10).2.1, []) :=
  C6_update_system_state_idempotent (fun _ => 0) (fun _ => 1) 0 10 10 (by decide)

theorem active_result_state_or (o : Nat → Nat) (k : Nat) (nl : Bool) (new1 s : Nat)
    (c : List STCmd) :
    (st_tp_update_system_state_active o k nl new1 s c).2.1 = s ∨
    (st_tp_update_system_state_active o k nl new1 s c).2.1
      = set_bits s new1 SYSTEM_STATE_ACTIVE_MODE := by
  unfold st_tp_update_system_state_active
  split
  · dsimp only
    split
    · exact Or.inl rfl
    · exact Or.inr (locked_result_state _ _ _ _ _)
  · exact Or.inl (locked_result_state _ _ _ _ _)

theorem feature_result_state_or (o : Nat → Nat) (new1 s1 : Nat) :
    (st_tp_update_system_state_feature o new1 s1).2.1 = s1 ∨
    (st_tp_update_system_state_feature o new1 s1).2.1
      = set_bits s1 new1 SYSTEM_STATE_ACTIVE_MODE ∨
    (st_tp_update_system_state_feature o new1 s1).2.1
      = set_bits s1 new1 (SYSTEM_STATE_ENABLE_HEAT_MAP ||| SYSTEM_STATE_ENABLE_DOME_SWITCH) ∨
    (st_tp_update_system_state_feature o new1 s1).2.1
      = set_bits
          (set_bits s1 new1 (SYSTEM_STATE_ENABLE_HEAT_MAP ||| SYSTEM_STATE_ENABLE_DOME_SWITCH))
          new1 SYSTEM_STATE_ACTIVE_MODE := by
  unfold st_tp_update_system_state_feature
  split
  · dsimp only
    split
    · exact Or.inl rfl
    · rcases active_result_state_or o 1 _ new1 _ _ with h | h
      · exact Or.inr (Or.inr (Or.inl h))
      · exact Or.inr (Or.inr (Or.inr h))
  · rcases active_result_state_or o 0 false new1 s1 [] with h | h
    · exact Or.inl h
    · exact Or.inr (Or.inl h)

/-- Claim C9: whatever the outcome of the SPI transactions, a call of
`st_tp_update_system_state(new_state, mask)` leaves the bits of
`system_state` outside `mask` exactly as they were on entry. -/
theorem C9_update_system_state_frame (o : Nat → Nat) (s0 new mask : Nat)
    (hs0 : s0 < 2 ^ 32) :
    (st_tp_update_system_state o s0 new mask).2.1 &&& compl32 mask
      = s0 &&& compl32 mask := by
  have key : ∀ x : Nat, x &&& compl32 mask = s0 &&& compl32 mask →
      ∀ g : Nat, g < 2 ^ 32 →
      set_bits x (set_bits new s0 (compl32 mask)) g &&& compl32 mask
        = s0 &&& compl32 mask :=
    fun x hx g hg => set_bits_preserves_outside x s0 new mask g hs0 hg hx
  unfold st_tp_update_system_state
  by_cases hdbg : set_bits new s0 (compl32 mask) &&& SYSTEM_STATE_DEBUG_MODE
      ≠ s0 &&& SYSTEM_STATE_DEBUG_MODE
  · simp only [if_pos hdbg]
    have hs1 := key s0 rfl SYSTEM_STATE_DEBUG_MODE (by decide)
    rcases feature_result_state_or o (set_bits new s0 (compl32 mask))
        (set_bits s0 (set_bits new s0 (compl32 mask)) SYSTEM_STATE_DEBUG_MODE)
      with hf | hf | hf | hf
    · rw [hf]; exact hs1
    · rw [hf]; exact key _ hs1 _ (by decide)
    · rw [hf]; exact key _ hs1 _ (by decide)
    · rw [hf]; exact key _ (key _ hs1 _ (by decide)) _ (by decide)
  · simp only [if_neg hdbg]
    rcases feature_result_state_or o (set_bits new s0 (compl32 mask)) s0
      with hf | hf | hf | hf
    · rw [hf]
    · rw [hf]; exact key _ rfl _ (by decide)
    · rw [hf]; exact key _ rfl _ (by decide)
    · rw [hf]; exact key _ (key _ rfl _ (by decide)) _ (by decide)

theorem C9_update_system_state_frame_witness :
    (st_tp_update_system_state (fun _ => 1) 21 2 2).2.1 &&& compl32 2
      = 21 &&& compl32 2 :=
  C9_update_system_state_frame (fun _ => 1) 21 2 2 (by decide)

theorem active_no_locked (o : Nat → Nat) (k : Nat) (new1 s : Nat) (c : List STCmd)
    (hc : STCmd.scanModeLocked ∉ c) :
    STCmd.scanModeLocked ∉ (st_tp_update_system_state_active o k false new1 s c).2.2 := by
  unfold st_tp_update_system_state_active st_tp_update_system_state_locked
  split
  · dsimp only
    split
    · simp only [List.mem_append, List.mem_singleton]
      rintro (h | h)
      · exact hc h
      · exact STCmd.noConfusion h
    · simp only [Bool.false_eq_true, if_false, List.mem_append, List.mem_singleton]
      rintro (h | h)
      · exact hc h
      · exact STCmd.noConfusion h
  · simp only [Bool.false_eq_true, if_false]
    exact hc

theorem active_result_heat_map_bit (o : Nat → Nat) (k : Nat) (nl : Bool)
    (new1 s : Nat) (c : List STCmd) :
    (st_tp_update_system_state_active o k nl new1 s c).2.1
        &&& SYSTEM_STATE_ENABLE_HEAT_MAP = s &&& SYSTEM_STATE_ENABLE_HEAT_MAP := by
  rcases active_result_state_or o k nl new1 s c with h | h <;> rw [h]
  exact set_bits_land_disjoint _ _ _ _ (by decide) (by decide)

theorem active_success_cmds (o : Nat → Nat) (k : Nat) (new1 s : Nat)
    (c : List STCmd)
    (h : (st_tp_update_system_state_active o k true new1 s c).1 = EC_SUCCESS) :
    ∃ mid, (st_tp_update_system_state_active o k true new1 s c).2.2
      = c ++ mid ++ [STCmd.scanModeLocked] := by
  unfold st_tp_update_system_state_active st_tp_update_system_state_locked at h ⊢
  by_cases hc : new1 &&& SYSTEM_STATE_ACTIVE_MODE ≠ s &&& SYSTEM_STATE_ACTIVE_MODE
  · simp only [if_pos hc] at h ⊢
    by_cases ho : o k ≠ 0
    · rw [if_pos ho] at h
      exact absurd h (by simpa [EC_SUCCESS] using ho)
    · simp only [if_neg ho, if_pos rfl] at h ⊢
      by_cases ho2 : o (k + 1) ≠ 0
      · rw [if_pos ho2] at h
        exact absurd h (by simpa [EC_SUCCESS] using ho2)
      · rw [if_neg ho2]
        exact ⟨[STCmd.scanModeActive
          (if new1 &&& SYSTEM_STATE_ACTIVE_MODE ≠ 0 then 1 else 0)], by simp⟩
  · simp only [if_neg hc, if_pos rfl] at h ⊢
    by_cases ho : o k ≠ 0
    · rw [if_pos ho] at h
      exact absurd h (by simpa [EC_SUCCESS] using ho)
    · rw [if_neg ho]
      exact ⟨[], by simp⟩

theorem feature_locked_scan (o : Nat → Nat) (new1 s1 : Nat) :
    ((st_tp_update_system_state_feature o new1 s1).1 = EC_SUCCESS →
     s1 &&& SYSTEM_STATE_ENABLE_HEAT_MAP = 0 →
     (st_tp_update_system_state_feature o new1 s1).2.1
       &&& SYSTEM_STATE_ENABLE_HEAT_MAP ≠ 0 →
     ∃ b mid, (st_tp_update_system_state_feature o new1 s1).2.2
         = STCmd.featureSelect b :: (mid ++ [STCmd.scanModeLocked]) ∧ b &&& 1 = 1) ∧
    ((st_tp_update_system_state_feature o new1 s1).2.1
       &&& SYSTEM_STATE_ENABLE_HEAT_MAP = 0 →
     STCmd.scanModeLocked ∉ (st_tp_update_system_state_feature o new1 s1).2.2) := by
  unfold st_tp_update_system_state_feature
  by_cases hc : new1 &&& (SYSTEM_STATE_ENABLE_HEAT_MAP ||| SYSTEM_STATE_ENABLE_DOME_SWITCH)
      ≠ s1 &&& (SYSTEM_STATE_ENABLE_HEAT_MAP ||| SYSTEM_STATE_ENABLE_DOME_SWITCH)
  · simp only [if_pos hc]
    by_cases ho : o 0 ≠ 0
    · simp only [if_pos ho]
      constructor
      · intro h1 _ _
        exact absurd h1 (by simpa [EC_SUCCESS] using ho)
      · intro _
        simp only [List.mem_singleton]
        intro h
        exact STCmd.noConfusion h
    · simp only [if_neg ho]
      have hbit : (st_tp_update_system_state_active o 1
            (decide (new1 &&& SYSTEM_STATE_ENABLE_HEAT_MAP ≠ 0)) new1
            (set_bits s1 new1
              (SYSTEM_STATE_ENABLE_HEAT_MAP ||| SYSTEM_STATE_ENABLE_DOME_SWITCH))
            [STCmd.featureSelect
              ((if new1 &&& SYSTEM_STATE_ENABLE_HEAT_MAP ≠ 0 then 1 else 0) |||
               (if new1 &&& SYSTEM_STATE_ENABLE_DOME_SWITCH ≠ 0 then 2 else 0))]).2.1
            &&& SYSTEM_STATE_ENABLE_HEAT_MAP
          = new1 &&& SYSTEM_STATE_ENABLE_HEAT_MAP := by
        rw [active_result_heat_map_bit]
        exact set_bits_land_sub _ _ _ _ (by decide) (by decide)
      constructor
      · intro h1 _ h3
        rw [hbit] at h3
        rw [decide_eq_true h3] at h1 ⊢
        obtain ⟨mid, hmid⟩ := active_success_cmds o 1 new1 _ _ h1
        refine ⟨(if new1 &&& SYSTEM_STATE_ENABLE_HEAT_MAP ≠ 0 then 1 else 0) |||
               (if new1 &&& SYSTEM_STATE_ENABLE_DOME_SWITCH ≠ 0 then 2 else 0),
          mid, ?_, ?_⟩
        · rw [hmid]
          simp
        · rw [if_pos h3]
          by_cases hd : new1 &&& SYSTEM_STATE_ENABLE_DOME_SWITCH ≠ 0
          · rw [if_pos hd]; decide
          · rw [if_neg hd]; decide
      · intro h
        rw [hbit] at h
        rw [decide_eq_false (by simpa using h)]
        apply active_no_locked
        simp only [List.mem_singleton]
        intro hx
        exact STCmd.noConfusion hx
  · simp only [if_neg hc]
    constructor
    · intro _ h2 h3
      rw [active_result_heat_map_bit] at h3
      exact absurd h2 h3
    · intro _
      apply active_no_locked
      simp

/-- Claim C7 counterexample: starting from `system_state = 0`, the call
`st_tp_update_system_state(HEAT_MAP | ACTIVE, HEAT_MAP | ACTIVE)` with a
successful feature-select transaction and a failing scan-mode-select
transaction commits the heat-map enable (the flag transitions off to on)
but returns before the locked-scan-mode command is ever issued, so the
feature-select command is not followed by a locked-scan-mode command within
the call. -/
theorem C7_counterexample_enable_without_locked_scan :
    st_tp_update_system_state (fun k => k) 0 10 10
      = (1, 2, [STCmd.featureSelect 1, STCmd.scanModeActive 1]) ∧
    0 &&& SYSTEM_STATE_ENABLE_HEAT_MAP = 0 ∧
    (st_tp_update_system_state (fun k => k) 0 10 10).2.1
      &&& SYSTEM_STATE_ENABLE_HEAT_MAP ≠ 0 ∧
    STCmd.scanModeLocked ∉ (st_tp_update_system_state (fun k => k) 0 10 10).2.2 :=
  ⟨by decide, by decide, by decide, by decide⟩

/-- Claim C7 (amended): when a call of `st_tp_update_system_state` returns
success and transitions the heat-map flag from off to on, its command
sequence starts with the feature-select command (heat-map bit set in the
payload) and ends with the locked-scan-mode command; a call after which the
heat-map flag is off (in particular any call that disables heat-map mode)
never issues the locked-scan-mode command, whether it succeeds or fails.  A
call that fails after committing the heat-map enable may return without
issuing the locked-scan-mode command. -/
theorem C7_amended_heatmap_enable_locked_scan (o : Nat → Nat) (s0 new mask : Nat) :
    ((st_tp_update_system_state o s0 new mask).1 = EC_SUCCESS →
     s0 &&& SYSTEM_STATE_ENABLE_HEAT_MAP = 0 →
     (st_tp_update_system_state o s0 new mask).2.1
       &&& SYSTEM_STATE_ENABLE_HEAT_MAP ≠ 0 →
     ∃ b mid, (st_tp_update_system_state o s0 new mask).2.2
         = STCmd.featureSelect b :: (mid ++ [STCmd.scanModeLocked]) ∧ b &&& 1 = 1) ∧
    ((st_tp_update_system_state o s0 new mask).2.1
       &&& SYSTEM_STATE_ENABLE_HEAT_MAP = 0 →
     STCmd.scanModeLocked ∉ (st_tp_update_system_state o s0 new mask).2.2) := by
  unfold st_tp_update_system_state
  by_cases hdbg : set_bits new s0 (compl32 mask) &&& SYSTEM_STATE_DEBUG_MODE
      ≠ s0 &&& SYSTEM_STATE_DEBUG_MODE
  · simp only [if_pos hdbg]
    have hf := feature_locked_scan o (set_bits new s0 (compl32 mask))
      (set_bits s0 (set_bits new s0 (compl32 mask)) SYSTEM_STATE_DEBUG_MODE)
    have hs1 : set_bits s0 (set_bits new s0 (compl32 mask)) SYSTEM_STATE_DEBUG_MODE
        &&& SYSTEM_STATE_ENABLE_HEAT_MAP = s0 &&& SYSTEM_STATE_ENABLE_HEAT_MAP :=
      set_bits_land_disjoint _ _ _ _ (by decide) (by decide)
    refine ⟨fun h1 h2 h3 => hf.1 h1 (by rw [hs1, h2]) h3, hf.2⟩
  · simp only [if_neg hdbg]
    exact feature_locked_scan o (set_bits new s0 (compl32 mask)) s0

theorem C7_amended_heatmap_enable_locked_scan_witness :
    (∃ b mid, (st_tp_update_system_state (fun _ => 0) 0 2 2).2.2
        = STCmd.featureSelect b :: (mid ++ [STCmd.scanModeLocked]) ∧ b &&& 1 = 1) ∧
    STCmd.scanModeLocked ∉ (st_tp_update_system_state (fun _ => 0) 2 0 2).2.2 :=
  ⟨(C7_amended_heatmap_enable_locked_scan (fun _ => 0) 0 2 2).1
      (by decide) (by decide) (by decide),
   (C7_amended_heatmap_enable_locked_scan (fun _ => 0) 2 0 2).2 (by decide)⟩

/-! ### Host-data loader (`st_tp_load_host_data`)

The loader reads the host-data header at staging address 0, returns at once
on a block-id cache hit, and otherwise issues the reload command and polls
the header up to 5 times (10 ms apart), succeeding when the header has the
right magic, the requested block id, and a revision counter different from
the pre-reload value. -/

/-- `struct st_tp_host_data_header_t`: the fields the loader inspects. -/
structure HostDataHeader where
  magic : Nat
  host_data_mem_id : Nat
  count : Nat
deriving DecidableEq, Repr

/-- Modelled from the spec: the host-data header magic constant
(`ST_TP_HEADER_MAGIC` of `touchpad_st.h`, not under `src/`); only
comparison against it matters. -/
def ST_TP_HEADER_MAGIC : Nat := 165

/-- The retry loop of `st_tp_load_host_data` (`retry = 5; while (retry--)`).
`hdr i` is the header returned by the i-th header-read transaction of the
call (read 0 is the initial one before the reload command); the result is
the return value paired with the number of polls performed. -/
def loadHostDataPoll (hdr : Nat → HostDataHeader) (mem_id count0 : Nat) :
    Nat → Nat → Nat × Nat
  | _, 0 => (EC_ERROR_TIMEOUT, 0)
  | i, r + 1 =>
    if (hdr i).magic = ST_TP_HEADER_MAGIC ∧ (hdr i).host_data_mem_id = mem_id ∧
        (hdr i).count ≠ count0 then
      (EC_SUCCESS, 1)
    else
      let rest := loadHostDataPoll hdr mem_id count0 (i + 1) r
      (rest.1, rest.2 + 1)

/-- `st_tp_load_host_data(mem_id)`: initial header read (its transaction
result is ignored by the code), cache-hit short circuit, reload command
(result `reloadRet`), then the bounded poll.  Result: the return value
paired with the total number of SPI transactions issued. -/
def st_tp_load_host_data (hdr : Nat → HostDataHeader) (reloadRet : Nat)
    (mem_id : Nat) : Nat × Nat :=
  if (hdr 0).host_data_mem_id = mem_id then (EC_SUCCESS, 1)
  else if reloadRet ≠ 0 then (reloadRet, 2)
  else
    let p := loadHostDataPoll hdr mem_id (hdr 0).count 1 5
    (p.1, 2 + p.2)

theorem loadHostDataPoll_timeout (hdr : Nat → HostDataHeader) (mem_id count0 : Nat) :
    ∀ (r i : Nat),
      (∀ t, i ≤ t → t < i + r →
        ¬((hdr t).magic = ST_TP_HEADER_MAGIC ∧ (hdr t).host_data_mem_id = mem_id ∧
          (hdr t).count ≠ count0)) →
      loadHostDataPoll hdr mem_id count0 i r = (EC_ERROR_TIMEOUT, r) := by
  intro r
  induction r with
  | zero => intro i _; rfl
  | succ n ih =>
    intro i hmiss
    unfold loadHostDataPoll
    rw [if_neg (hmiss i (le_refl i) (by omega))]
    rw [ih (i + 1) (fun t ht1 ht2 => hmiss t (by omega) (by omega))]

theorem loadHostDataPoll_hit (hdr : Nat → HostDataHeader) (mem_id count0 : Nat) :
    ∀ (r i j : Nat), i ≤ j → j < i + r →
      ((hdr j).magic = ST_TP_HEADER_MAGIC ∧ (hdr j).host_data_mem_id = mem_id ∧
        (hdr j).count ≠ count0) →
      (∀ t, i ≤ t → t < j →
        ¬((hdr t).magic = ST_TP_HEADER_MAGIC ∧ (hdr t).host_data_mem_id = mem_id ∧
          (hdr t).count ≠ count0)) →
      loadHostDataPoll hdr mem_id count0 i r = (EC_SUCCESS, j - i + 1) := by
  intro r
  induction r with
  | zero => intro i j h1 h2; omega
  | succ n ih =>
    intro i j hij hlt hhit hmiss
    unfold loadHostDataPoll
    by_cases hi : i = j
    · subst hi
      rw [if_pos hhit]
      simp
    · rw [if_neg (hmiss i (le_refl i) (by omega))]
      rw [ih (i + 1) j (by omega) (by omega) hhit
        (fun t ht1 ht2 => hmiss t (by omega) ht2)]
      have : j - i = j - (i + 1) + 1 := by omega
      simp [this]

/-- Claim C8: `st_tp_load_host_data(mem_id)` returns success after the
single initial header read when the resident block id already equals
`mem_id` (no reload, no polling); otherwise it issues the reload command
(propagating its failure), then polls at most 5 times, returning success at
the first header showing the magic, the requested id and a changed revision
counter, and the timeout error after 5 fruitless polls (7 transactions in
total). -/
theorem C8_load_host_data_cache_hit_and_polling (hdr : Nat → HostDataHeader)
    (reloadRet mem_id : Nat) :
    ((hdr 0).host_data_mem_id = mem_id →
      st_tp_load_host_data hdr reloadRet mem_id = (EC_SUCCESS, 1)) ∧
    ((hdr 0).host_data_mem_id ≠ mem_id → reloadRet ≠ 0 →
      st_tp_load_host_data hdr reloadRet mem_id = (reloadRet, 2)) ∧
    ((hdr 0).host_data_mem_id ≠ mem_id → reloadRet = 0 →
      (∀ t, 1 ≤ t → t ≤ 5 →
        ¬((hdr t).magic = ST_TP_HEADER_MAGIC ∧ (hdr t).host_data_mem_id = mem_id ∧
          (hdr t).count ≠ (hdr 0).count)) →
      st_tp_load_host_data hdr reloadRet mem_id = (EC_ERROR_TIMEOUT, 7)) ∧
    (∀ j, (hdr 0).host_data_mem_id ≠ mem_id → reloadRet = 0 →
      1 ≤ j → j ≤ 5 →
      ((hdr j).magic = ST_TP_HEADER_MAGIC ∧ (hdr j).host_data_mem_id = mem_id ∧
        (hdr j).count ≠ (hdr 0).count) →
      (∀ t, 1 ≤ t → t < j →
        ¬((hdr t).magic = ST_TP_HEADER_MAGIC ∧ (hdr t).host_data_mem_id = mem_id ∧
          (hdr t).count ≠ (hdr 0).count)) →
      st_tp_load_host_data hdr reloadRet mem_id = (EC_SUCCESS, 2 + j)) := by
  refine ⟨?_, ?_, ?_, ?_⟩
  · intro h
    unfold st_tp_load_host_data
    rw [if_pos h]
  · intro h hr
    unfold st_tp_load_host_data
    rw [if_neg h, if_pos hr]
  · intro h hr hmiss
    unfold st_tp_load_host_data
    rw [if_neg h, if_neg (by simpa using hr)]
    rw [loadHostDataPoll_timeout hdr mem_id (hdr 0).count 5 1
      (fun t ht1 ht2 => hmiss t ht1 (by omega))]
    rfl
  · intro j h hr hj1 hj5 hhit hmiss
    unfold st_tp_load_host_data
    rw [if_neg h, if_neg (by simpa using hr)]
    rw [loadHostDataPoll_hit hdr mem_id (hdr 0).count 5 1 j hj1 (by omega) hhit hmiss]
    have hj : j - 1 + 1 = j := by omega
    simp only [hj]

theorem C8_load_host_data_cache_hit_and_polling_witness :
    st_tp_load_host_data (fun _ => ⟨165, 1, 0⟩) 3 1 = (EC_SUCCESS, 1) ∧
    st_tp_load_host_data (fun i => if i = 0 then ⟨165, 2, 0⟩ else ⟨165, 1, 7⟩) 0 1
      = (EC_SUCCESS, 2 + 1) :=
  ⟨(C8_load_host_data_cache_hit_and_polling (fun _ => ⟨165, 1, 0⟩) 3 1).1 (by decide),
   (C8_load_host_data_cache_hit_and_polling
      (fun i => if i = 0 then ⟨165, 2, 0⟩ else ⟨165, 1, 7⟩) 0 1).2.2.2 1
     (by decide) rfl (by decide) (by decide) (by decide) (by omega)⟩

/-! ### Flash programmer (`st_tp_write_flash`, `touchpad_update_write`)

The device constants `ST_TP_DMA_CHUNK_SIZE`, `ST_TP_FLASH_BUFFER_SIZE`,
`ST_TP_FLASH_OFFSET_CX` and `ST_TP_FLASH_OFFSET_CONFIG` live in
`touchpad_st.h`, which is not among the sources; the model takes them as
parameters, constrained exactly as the write loop requires (a positive
chunk size dividing the positive flash-buffer size). -/

/-- Modelled from the spec: the flash-programming constants of
`touchpad_st.h` (not under `src/`).  `dmaChunk` is the DMA transfer limit,
`flashBuf` the on-device flash buffer size, and `[cx, config)` the
protected calibration sub-range of the offset space. -/
structure FlashParams where
  dmaChunk : Nat
  flashBuf : Nat
  cx : Nat
  config : Nat
  chunk_pos : 0 < dmaChunk
  buf_pos : 0 < flashBuf
  chunk_dvd_buf : dmaChunk ∣ flashBuf

/-- The SPI transactions of the flash write path that carry image data or
commit it: a DMA chunk write (`st_tp_write_one_chunk`, address in the
device's flash buffer window and the raw bytes), the flash DMA
configuration command (register 0x72, word offset and word count minus
one), and the DMA start + ready wait (`st_tp_start_flash_dma`). -/
inductive FlashEv where
  | chunk (addr : Nat) (bytes : List Nat)
  | dmaConfig (offsetWords lenWords : Nat)
  | startDMA
deriving DecidableEq, Repr

/-- All image bytes carried by the chunk-write transactions of a trace, in
transmission order. -/
def flashChunkBytes : List FlashEv → List Nat
  | [] => []
  | FlashEv.chunk _ bs :: evs => bs ++ flashChunkBytes evs
  | _ :: evs => flashChunkBytes evs

/-- The commit commands of a trace: the (word offset, word count minus one)
pairs of the DMA configuration transactions, in order. -/
def commitsOf : List FlashEv → List (Nat × Nat)
  | [] => []
  | FlashEv.dmaConfig ow lw :: evs => (ow, lw) :: commitsOf evs
  | _ :: evs => commitsOf evs

/-- The inner loop of `st_tp_write_flash`
(`while (flash_buffer_size < ST_TP_FLASH_BUFFER_SIZE)`): write chunks of at
most `dmaChunk` bytes at increasing buffer addresses until the flash buffer
capacity is reached or the data runs out (`if (head >= tail) break`).
Returns the chunk transactions, the accumulated `flash_buffer_size`, and
the unwritten remainder of the data, for the all-transactions-succeed
execution. -/
def st_tp_write_flash_chunks (p : FlashParams) (fbsAcc addr : Nat) :
    List Nat → List FlashEv × Nat × List Nat
  | [] => ([], fbsAcc, [])
  | d :: ds =>
    if fbsAcc < p.flashBuf then
      let data := d :: ds
      let chunk := min p.dmaChunk data.length
      let ev := FlashEv.chunk addr (data.take chunk)
      let rest := data.drop chunk
      if rest = [] then ([ev], fbsAcc + chunk, [])
      else
        let r := st_tp_write_flash_chunks p (fbsAcc + chunk) (addr + chunk) rest
        (ev :: r.1, r.2.1, r.2.2)
    else ([], fbsAcc, d :: ds)
  termination_by data => data.length
  decreasing_by
    have := p.chunk_pos
    simp [List.length_drop]
    omega

/-- A `dmaChunk`-aligned fill level strictly below the buffer capacity
leaves room for at least one more full chunk. -/
theorem chunk_le_cap (p : FlashParams) (fbsAcc : Nat) (hdvd : p.dmaChunk ∣ fbsAcc)
    (hfb : fbsAcc < p.flashBuf) : fbsAcc + p.dmaChunk ≤ p.flashBuf := by
  obtain ⟨a, ha⟩ := hdvd
  obtain ⟨b, hb⟩ := p.chunk_dvd_buf
  have hc := p.chunk_pos
  have hab : a < b := by
    by_contra hge
    push_neg at hge
    have := Nat.mul_le_mul_left p.dmaChunk hge
    omega
  have hs : p.dmaChunk * (a + 1) ≤ p.dmaChunk * b :=
    Nat.mul_le_mul_left p.dmaChunk (by omega)
  rw [Nat.mul_succ] at hs
  omega

/-- One pass of the inner chunk loop consumes exactly
`min (capacity left) (data length)` bytes: those bytes are transmitted in
order and the rest is returned unwritten. -/
theorem write_flash_chunks_spec (p : FlashParams) (fbsAcc addr : Nat)
    (data : List Nat) :
    p.dmaChunk ∣ fbsAcc → fbsAcc ≤ p.flashBuf →
    ((st_tp_write_flash_chunks p fbsAcc addr data).2.2
        = data.drop (min (p.flashBuf - fbsAcc) data.length) ∧
     (st_tp_write_flash_chunks p fbsAcc addr data).2.1
        = fbsAcc + min (p.flashBuf - fbsAcc) data.length ∧
     flashChunkBytes (st_tp_write_flash_chunks p fbsAcc addr data).1
        = data.take (min (p.flashBuf - fbsAcc) data.length)) := by
  induction fbsAcc, addr, data using st_tp_write_flash_chunks.induct p with
  | case1 fbsAcc addr =>
    intro _ _
    refine ⟨?_, ?_, ?_⟩ <;> simp [st_tp_write_flash_chunks, flashChunkBytes]
  | case2 fbsAcc addr d ds hfb data chunk rest hrest =>
    intro hdvd hle
    have hrest2 : List.drop (p.dmaChunk ⊓ (d :: ds).length) (d :: ds) = [] := hrest
    have hlenle : (d :: ds).length ≤ p.dmaChunk := by
      have := congrArg List.length hrest2
      simp only [List.length_drop, List.length_nil] at this
      omega
    have hcap := chunk_le_cap p fbsAcc hdvd hfb
    have hmin1 : p.dmaChunk ⊓ (d :: ds).length = (d :: ds).length := by omega
    have hmin2 : (p.flashBuf - fbsAcc) ⊓ (d :: ds).length = (d :: ds).length := by
      omega
    simp only [st_tp_write_flash_chunks, if_pos hfb, if_pos hrest2]
    refine ⟨?_, ?_, ?_⟩
    · rw [hmin2, List.drop_length]
    · rw [hmin1, hmin2]
    · simp only [flashChunkBytes, List.append_nil, hmin1, hmin2, List.take_length]
  | case3 fbsAcc addr d ds hfb data chunk rest hrest ih =>
    intro hdvd hle
    have hrest2 : ¬ List.drop (p.dmaChunk ⊓ (d :: ds).length) (d :: ds) = [] := hrest
    have hlt : p.dmaChunk < (d :: ds).length := by
      by_contra h2
      push_neg at h2
      apply hrest2
      have hm : p.dmaChunk ⊓ (d :: ds).length = (d :: ds).length := by omega
      rw [hm, List.drop_length]
    have hchunk : p.dmaChunk ⊓ (d :: ds).length = p.dmaChunk := by omega
    have hcap := chunk_le_cap p fbsAcc hdvd hfb
    have hdvd2 : p.dmaChunk ∣ fbsAcc + p.dmaChunk ⊓ (d :: ds).length := by
      rw [hchunk]
      exact Dvd.dvd.add hdvd dvd_rfl
    have hle2 : fbsAcc + p.dmaChunk ⊓ (d :: ds).length ≤ p.flashBuf := by
      rw [hchunk]
      omega
    obtain ⟨ih1, ih2, ih3⟩ := ih hdvd2 hle2
    have hchunkv : chunk = p.dmaChunk := hchunk
    have hrestv : rest = List.drop p.dmaChunk (d :: ds) := by
      show List.drop (p.dmaChunk ⊓ (d :: ds).length) (d :: ds) = _
      rw [hchunk]
    rw [hchunkv, hrestv] at ih1 ih2 ih3
    simp only [List.length_drop] at ih1 ih2 ih3
    have hrest3 : ¬ List.drop p.dmaChunk (d :: ds) = [] := by
      rw [← hchunk]
      exact hrest2
    simp only [st_tp_write_flash_chunks, if_pos hfb, hchunk, if_neg hrest3]
    refine ⟨?_, ?_, ?_⟩
    · show (st_tp_write_flash_chunks p (fbsAcc + p.dmaChunk)
          (addr + p.dmaChunk) (List.drop p.dmaChunk (d :: ds))).2.2 = _
      rw [ih1, List.drop_drop]
      congr 1
      omega
    · show (st_tp_write_flash_chunks p (fbsAcc + p.dmaChunk)
          (addr + p.dmaChunk) (List.drop p.dmaChunk (d :: ds))).2.1 = _
      rw [ih2]
      omega
    · show flashChunkBytes (FlashEv.chunk addr
          (List.take p.dmaChunk (d :: ds)) ::
          (st_tp_write_flash_chunks p (fbsAcc + p.dmaChunk)
            (addr + p.dmaChunk) (List.drop p.dmaChunk (d :: ds))).1) = _
      simp only [flashChunkBytes]
      rw [ih3, ← List.take_add]
      congr 1
      omega
  | case4 fbsAcc addr d ds hfb =>
    intro hdvd hle
    have hfb2 : fbsAcc = p.flashBuf := by omega
    refine ⟨?_, ?_, ?_⟩ <;>
      simp [st_tp_write_flash_chunks, if_neg hfb, hfb2, flashChunkBytes]

theorem write_flash_chunks_rem_length_lt (p : FlashParams) (addr d : Nat)
    (ds : List Nat) :
    ((st_tp_write_flash_chunks p 0 addr (d :: ds)).2.2).length < (d :: ds).length := by
  have h := (write_flash_chunks_spec p 0 addr (d :: ds) (dvd_zero _) (Nat.zero_le _)).1
  rw [h, List.length_drop]
  have := p.buf_pos
  simp only [Nat.sub_zero, List.length_cons]
  omega

/-- The outer loop of `st_tp_write_flash` (`while (head < tail)`): per
flash-buffer-sized group, the chunk writes (buffer window starts at
0x00100000), then the DMA configuration referencing the group's word offset
and `flash_buffer_size / 4 - 1`, then the DMA start; the word offset
advances by `ST_TP_FLASH_BUFFER_SIZE / 4` per group.  `offsetW` is the
running word offset (the C code's `offset` after `offset >>= 2`). -/
def st_tp_write_flash_groups (p : FlashParams) (offsetW : Nat) :
    List Nat → List FlashEv
  | [] => []
  | d :: ds =>
    let r := st_tp_write_flash_chunks p 0 0x00100000 (d :: ds)
    r.1 ++ [FlashEv.dmaConfig offsetW (r.2.1 / 4 - 1), FlashEv.startDMA] ++
      st_tp_write_flash_groups p (offsetW + p.flashBuf / 4) r.2.2
  termination_by data => data.length
  decreasing_by
    exact write_flash_chunks_rem_length_lt p 0x00100000 d ds

/-- Modelled from the spec: the expected shape of the commit commands ("per
flash-buffer-sized group ... referencing the group's word-aligned offset
and word count"), stated independently of the write loop for comparison:
one commit per flash-buffer-sized slice of the data, at word offsets
spaced by `flashBuf / 4`, whose word count corresponds to the slice
size. -/
def flashCommitSpec (p : FlashParams) (offsetW : Nat) : List Nat → List (Nat × Nat)
  | [] => []
  | d :: ds =>
    (offsetW, min p.flashBuf (d :: ds).length / 4 - 1) ::
      flashCommitSpec p (offsetW + p.flashBuf / 4) ((d :: ds).drop p.flashBuf)
  termination_by data => data.length
  decreasing_by
    have := p.buf_pos
    simp [List.length_drop]
    omega

theorem flashChunkBytes_append (a b : List FlashEv) :
    flashChunkBytes (a ++ b) = flashChunkBytes a ++ flashChunkBytes b := by
  induction a with
  | nil => simp [flashChunkBytes]
  | cons e a ih =>
    cases e <;> simp [flashChunkBytes, ih]

theorem commitsOf_append (a b : List FlashEv) :
    commitsOf (a ++ b) = commitsOf a ++ commitsOf b := by
  induction a with
  | nil => simp [commitsOf]
  | cons e a ih =>
    cases e <;> simp [commitsOf, ih]

theorem write_flash_chunks_only_chunks (p : FlashParams) (fbsAcc addr : Nat)
    (data : List Nat) :
    ∀ ev ∈ (st_tp_write_flash_chunks p fbsAcc addr data).1,
      ∃ a bs, ev = FlashEv.chunk a bs ∧ bs.length ≤ p.dmaChunk := by
  induction fbsAcc, addr, data using st_tp_write_flash_chunks.induct p with
  | case1 fbsAcc addr =>
    intro ev h
    simp [st_tp_write_flash_chunks] at h
  | case2 fbsAcc addr d ds hfb data chunk rest hrest =>
    intro ev h
    have hrest2 : List.drop (p.dmaChunk ⊓ (d :: ds).length) (d :: ds) = [] := hrest
    simp only [st_tp_write_flash_chunks, if_pos hfb, if_pos hrest2,
      List.mem_singleton] at h
    subst h
    refine ⟨addr, _, rfl, ?_⟩
    rw [List.length_take]
    omega
  | case3 fbsAcc addr d ds hfb data chunk rest hrest ih =>
    intro ev h
    have hrest2 : ¬ List.drop (p.dmaChunk ⊓ (d :: ds).length) (d :: ds) = [] := hrest
    simp only [st_tp_write_flash_chunks, if_pos hfb, if_neg hrest2,
      List.mem_cons] at h
    rcases h with h | h
    · subst h
      refine ⟨addr, _, rfl, ?_⟩
      rw [List.length_take]
      omega
    · exact ih ev h
  | case4 fbsAcc addr d ds hfb =>
    intro ev h
    simp [st_tp_write_flash_chunks, if_neg hfb] at h

theorem commitsOf_eq_nil (l : List FlashEv)
    (h : ∀ ev ∈ l, ∃ a bs, ev = FlashEv.chunk a bs) : commitsOf l = [] := by
  induction l with
  | nil => rfl
  | cons e l ih =>
    obtain ⟨a, bs, he⟩ := h e (List.mem_cons_self e l)
    subst he
    simp only [commitsOf]
    exact ih fun ev hev => h ev (List.mem_cons_of_mem _ hev)

theorem drop_min_length (l : List Nat) (a : Nat) :
    l.drop (min a l.length) = l.drop a := by
  rcases Nat.le_total a l.length with h | h
  · rw [Nat.min_eq_left h]
  · rw [Nat.min_eq_right h, List.drop_length]
    exact (List.drop_eq_nil_of_le h).symm

/-- The chunk transactions of a flash write carry exactly the call's data
bytes, in order. -/
theorem write_flash_groups_bytes (p : FlashParams) (offsetW : Nat)
    (data : List Nat) :
    flashChunkBytes (st_tp_write_flash_groups p offsetW data) = data := by
  induction offsetW, data using st_tp_write_flash_groups.induct p with
  | case1 offsetW => simp [st_tp_write_flash_groups, flashChunkBytes]
  | case2 offsetW d ds r ih =>
    obtain ⟨h1, h2, h3⟩ :=
      write_flash_chunks_spec p 0 0x00100000 (d :: ds) (dvd_zero _) (Nat.zero_le _)
    simp only [st_tp_write_flash_groups, flashChunkBytes_append, flashChunkBytes]
    rw [h3, ih, h1]
    simp [List.take_append_drop]

/-- The commit commands of a flash write have exactly the shape the spec
describes. -/
theorem write_flash_groups_commits (p : FlashParams) (offsetW : Nat)
    (data : List Nat) :
    commitsOf (st_tp_write_flash_groups p offsetW data)
      = flashCommitSpec p offsetW data := by
  induction offsetW, data using st_tp_write_flash_groups.induct p with
  | case1 offsetW => simp [st_tp_write_flash_groups, flashCommitSpec, commitsOf]
  | case2 offsetW d ds r ih =>
    obtain ⟨h1, h2, h3⟩ :=
      write_flash_chunks_spec p 0 0x00100000 (d :: ds) (dvd_zero _) (Nat.zero_le _)
    simp only [st_tp_write_flash_groups, commitsOf_append, commitsOf]
    rw [commitsOf_eq_nil _ (fun ev hev =>
      ((write_flash_chunks_only_chunks p 0 0x00100000 (d :: ds)) ev hev).imp
        (fun a h => h.imp fun bs hh => hh.1))]
    rw [ih, h2, h1]
    simp only [Nat.sub_zero, Nat.zero_add, List.nil_append]
    rw [drop_min_length]
    simp [flashCommitSpec]

theorem write_flash_groups_chunk_sizes (p : FlashParams) (offsetW : Nat)
    (data : List Nat) :
    ∀ a bs, FlashEv.chunk a bs ∈ st_tp_write_flash_groups p offsetW data →
      bs.length ≤ p.dmaChunk := by
  induction offsetW, data using st_tp_write_flash_groups.induct p with
  | case1 offsetW =>
    intro a bs h
    simp [st_tp_write_flash_groups] at h
  | case2 offsetW d ds r ih =>
    intro a bs h
    simp only [st_tp_write_flash_groups, List.mem_append, List.mem_cons,
      List.not_mem_nil, or_false] at h
    rcases h with (h | h | h) | h
    · obtain ⟨a2, bs2, heq, hle⟩ :=
        write_flash_chunks_only_chunks p 0 0x00100000 (d :: ds) _ h
      cases heq
      exact hle
    · exact FlashEv.noConfusion h
    · exact FlashEv.noConfusion h
    · exact ih a bs h

/-- The transactions of `st_tp_write_flash(offset, size, data)` when every
transaction succeeds (a transaction failure aborts the call, truncating
this sequence).  The byte offset is converted to words (`offset >>= 2`). -/
def st_tp_write_flash_trace (p : FlashParams) (offset : Nat) (data : List Nat) :
    List FlashEv :=
  st_tp_write_flash_groups p (offset / 4) data

/-- `touchpad_update_write(offset, size, data)` for `offset > 0`, or for
`offset == 0` given that the prepare sequence never reports failure (see
`st_tp_prepare_for_update` below): reject a non-chunk-aligned offset, skip
the write entirely (reporting success) when the starting offset lies in the
protected CX range, and otherwise issue the flash write.  The result is the
return value and the flash transactions issued; the `offset == 0` erase
register writes and the end-of-image reinitialization carry no image
bytes and are omitted from the trace. -/
def touchpad_update_write_model (p : FlashParams) (offset : Nat)
    (data : List Nat) : Nat × List FlashEv :=
  if offset % p.dmaChunk ≠ 0 then (EC_ERROR_INVAL, [])
  else if p.cx ≤ offset ∧ offset < p.config then (EC_SUCCESS, [])
  else (EC_SUCCESS, st_tp_write_flash_trace p offset data)

/-- Modelled from the spec: concrete example values for the flash constants
satisfying the model's constraints (chunk 32 dividing buffer 128, protected
sub-range [64, 128) strictly inside the offset space), used for concrete
evaluations. -/
def flashParams0 : FlashParams :=
  ⟨32, 128, 64, 128, by decide, by decide, by decide⟩

/-- Claim C4 counterexample: with chunk size 32 and protected range
[64, 128), the call `touchpad_update_write(32, 64, data)` starts outside
the protected range, so the guard `offset >= CX && offset < CONFIG` does
not fire; the call succeeds and transmits all 64 bytes — including byte 32,
whose flash offset 32 + 32 = 64 lies inside the protected calibration
sub-range.  So a data byte addressed inside the protected sub-range is
transmitted to the device. -/
theorem C4_counterexample_straddling_write_hits_protected_range :
    (touchpad_update_write_model flashParams0 32 (List.range 64)).1 = EC_SUCCESS ∧
    flashChunkBytes (touchpad_update_write_model flashParams0 32 (List.range 64)).2
      = List.range 64 ∧
    (∃ i, i < (flashChunkBytes
        (touchpad_update_write_model flashParams0 32 (List.range 64)).2).length ∧
      flashParams0.cx ≤ 32 + i ∧ 32 + i < flashParams0.config) := by
  have hmod : ¬ (32 % flashParams0.dmaChunk ≠ 0) := by decide
  have hprot : ¬ (flashParams0.cx ≤ 32 ∧ 32 < flashParams0.config) := by decide
  have hbytes : flashChunkBytes
      (touchpad_update_write_model flashParams0 32 (List.range 64)).2
      = List.range 64 := by
    simp only [touchpad_update_write_model, if_neg hmod, if_neg hprot]
    exact write_flash_groups_bytes flashParams0 8 (List.range 64)
  refine ⟨?_, hbytes, 32, ?_, by decide, by decide⟩
  · simp only [touchpad_update_write_model, if_neg hmod, if_neg hprot]
  · rw [hbytes]
    decide

/-- Claim C4 (amended): a `touchpad_update_write` call whose starting offset
lies inside the protected calibration sub-range performs no flash
transaction and returns success; a chunk-aligned call starting outside that
sub-range succeeds and transmits exactly its own data bytes (even those
whose flash offsets extend into the protected sub-range), in chunks of at
most the DMA chunk size, with commit commands referencing word offsets
spaced a flash-buffer group apart and word counts matching the committed
group, which holds min(flash-buffer size, bytes remaining) bytes. -/
theorem C4_amended_update_write_protected_range (p : FlashParams)
    (offset : Nat) (data : List Nat) :
    (offset % p.dmaChunk = 0 → p.cx ≤ offset → offset < p.config →
      touchpad_update_write_model p offset data = (EC_SUCCESS, [])) ∧
    (offset % p.dmaChunk = 0 → ¬(p.cx ≤ offset ∧ offset < p.config) →
      (touchpad_update_write_model p offset data).1 = EC_SUCCESS ∧
      flashChunkBytes (touchpad_update_write_model p offset data).2 = data ∧
      (∀ a bs, FlashEv.chunk a bs ∈ (touchpad_update_write_model p offset data).2 →
        bs.length ≤ p.dmaChunk) ∧
      commitsOf (touchpad_update_write_model p offset data).2
        = flashCommitSpec p (offset / 4) data) := by
  constructor
  · intro hmod hcx hconfig
    unfold touchpad_update_write_model
    rw [if_neg (by simpa using hmod), if_pos ⟨hcx, hconfig⟩]
  · intro hmod hprot
    unfold touchpad_update_write_model
    rw [if_neg (by simpa using hmod), if_neg hprot]
    exact ⟨rfl, write_flash_groups_bytes p (offset / 4) data,
      fun a bs h => write_flash_groups_chunk_sizes p (offset / 4) data a bs h,
      write_flash_groups_commits p (offset / 4) data⟩

theorem C4_amended_update_write_protected_range_witness :
    touchpad_update_write_model flashParams0 64 [1, 2, 3, 4] = (EC_SUCCESS, []) ∧
    flashChunkBytes (touchpad_update_write_model flashParams0 32 [1, 2, 3, 4]).2
      = [1, 2, 3, 4] :=
  ⟨(C4_amended_update_write_protected_range flashParams0 64 [1, 2, 3, 4]).1
      (by decide) (by decide) (by decide),
   ((C4_amended_update_write_protected_range flashParams0 32 [1, 2, 3, 4]).2
      (by decide) (by decide)).2.1⟩

/-! ### Erase and prepare sequence (`erase_flash`, `st_tp_prepare_for_update`)

The oracle `o` gives the result code of the k-th transaction of the update
call; `busy k` is bit 7 of the status byte read back by the k-th
transaction, the flash-busy bit checked by `wait_for_flash_ready`. -/

/-- The polling loop of `wait_for_flash_ready` (`retry = 200;
while (retry--)`): read the status register; stop with the read's (success)
result once the read succeeds with the busy bit clear; return
`EC_ERROR_TIMEOUT` when the retries are exhausted. -/
def wait_for_flash_ready_loop (o : Nat → Nat) (busy : Nat → Bool) :
    Nat → Nat → Nat
  | _, 0 => EC_ERROR_TIMEOUT
  | k, r + 1 =>
    if o k = EC_SUCCESS ∧ busy k = false then o k
    else wait_for_flash_ready_loop o busy (k + 1) r

/-- `wait_for_flash_ready`: 200 bounded polls of the status register. -/
def wait_for_flash_ready (o : Nat → Nat) (busy : Nat → Bool) (k : Nat) : Nat :=
  wait_for_flash_ready_loop o busy k 200

/-- `erase_flash()` starting at transaction index `k`: the erase-mask
register write (`write_hwreg_cmd32(0x20000128, 0xFFFFFF83)`), two further
register writes, each aborting with its error on failure, then the
flash-ready wait. -/
def erase_flash (o : Nat → Nat) (busy : Nat → Bool) (k : Nat) : Nat :=
  if o k ≠ 0 then o k
  else if o (k + 1) ≠ 0 then o (k + 1)
  else if o (k + 2) ≠ 0 then o (k + 2)
  else wait_for_flash_ready o busy (k + 3)

/-- `st_tp_prepare_for_update()`: three hold/unlock register writes whose
results are discarded, then `erase_flash()` whose result is also discarded,
then `return EC_SUCCESS;` unconditionally. -/
def st_tp_prepare_for_update (o : Nat → Nat) (busy : Nat → Bool) : Nat :=
  let _ := o 0
  let _ := o 1
  let _ := o 2
  let _ := erase_flash o busy 3
  EC_SUCCESS

/-- Claim C5: `st_tp_prepare_for_update` returns `EC_SUCCESS` for every
outcome of its transactions, so when the erase sequence of an
`offset == 0` call fails (here: its first transaction returns error 1,
which `erase_flash` itself reports), `touchpad_update_write` does not
return the failure — its `if (ret) return ret;` check never fires — and the
call proceeds to transmit the image to the device. -/
theorem C5_prepare_for_update_swallows_erase_failure :
    (∀ (o : Nat → Nat) (busy : Nat → Bool),
      st_tp_prepare_for_update o busy = EC_SUCCESS) ∧
    erase_flash (fun k => if k = 3 then 1 else 0) (fun _ => false) 3 = 1 ∧
    (1 : Nat) ≠ EC_SUCCESS ∧
    (touchpad_update_write_model flashParams0 0 [0, 1, 2, 3]).1 = EC_SUCCESS ∧
    flashChunkBytes (touchpad_update_write_model flashParams0 0 [0, 1, 2, 3]).2
      = [0, 1, 2, 3] := by
  refine ⟨fun o busy => rfl, by decide, by decide, ?_, ?_⟩
  · simp only [touchpad_update_write_model]
    rw [if_neg (by decide), if_neg (by decide)]
  · simp only [touchpad_update_write_model]
    rw [if_neg (by decide), if_neg (by decide)]
    exact write_flash_groups_bytes flashParams0 0 [0, 1, 2, 3]
